import Mathlib

/-!
Verification development for the boids simulation repository.

The Python source is shallowly embedded over the real numbers:
`Vector2D` (src/boids/vector2d.py), the toroidal `Model` geometry
(src/boids/models.py), the `Boid` setters and motion integration
(src/boids/models.py), and the `Flock` / `BoidSystem` steering pipeline
(src/boids/system.py).  Floating point arithmetic is modelled by exact
real arithmetic; `ZeroDivisionError` in `Vector2D.resize` is modelled
by `Option`.
-/

noncomputable section

namespace Boids

/-- Embedding of the frozen 2-component vector `Vector2D` from
src/boids/vector2d.py, with real-number components. -/
structure Vector2D where
  x : ℝ
  y : ℝ

namespace Vector2D

/-- The zero vector, `Zero = Vector2D(0, 0)` from src/boids/vector2d.py. -/
def Zero : Vector2D := ⟨0, 0⟩

/-- Componentwise vector addition, `Vector2D.__add__` with a vector operand. -/
def add (a b : Vector2D) : Vector2D := ⟨a.x + b.x, a.y + b.y⟩

/-- Componentwise vector subtraction, `Vector2D.__sub__` with a vector operand. -/
def sub (a b : Vector2D) : Vector2D := ⟨a.x - b.x, a.y - b.y⟩

/-- Vector negation, `Vector2D.__neg__`. -/
def neg (a : Vector2D) : Vector2D := ⟨-a.x, -a.y⟩

/-- Scalar multiplication, `scalar * vector` (`Vector2D.__rmul__`,
which broadcasts the scalar to both components). -/
def smul (c : ℝ) (a : Vector2D) : Vector2D := ⟨c * a.x, c * a.y⟩

/-- Division of a vector by a scalar, `Vector2D.__truediv__` with a
scalar operand (broadcast to both components). -/
def divScalar (a : Vector2D) (c : ℝ) : Vector2D := ⟨a.x / c, a.y / c⟩

/-- Python float modulo: `a % b = a - b * floor(a / b)` (the result takes
the sign of the divisor).  Used by `Vector2D.__mod__`. -/
def fmod (a b : ℝ) : ℝ := a - b * (⌊a / b⌋ : ℝ)

/-- Componentwise modulo of a vector by a vector, `Vector2D.__mod__`
with a vector operand.  Used for wrapping positions into the frame. -/
def modVec (a b : Vector2D) : Vector2D := ⟨fmod a.x b.x, fmod a.y b.y⟩

/-- `Vector2D.magnitude`: `sqrt(x*x + y*y)`. -/
def magnitude (a : Vector2D) : ℝ := Real.sqrt (a.x * a.x + a.y * a.y)

/-- `Vector2D.unit`: the componentwise division by the magnitude.
On the zero vector the source divides by zero; real division by zero
yields the junk value `0` here, and all internal call sites guard. -/
def unit (a : Vector2D) : Vector2D := ⟨a.x / magnitude a, a.y / magnitude a⟩

/-- `Vector2D.resize(magnitude)`: raises `ZeroDivisionError` (modelled as
`none`) when the receiver's magnitude is zero, otherwise returns
`(magnitude / self.magnitude) * self`. -/
def resize (a : Vector2D) (m : ℝ) : Option Vector2D :=
  if magnitude a = 0 then none else some (smul (m / magnitude a) a)

/-- The value computed by `resize` when its guard passes. -/
def resizeVal (a : Vector2D) (m : ℝ) : Vector2D := smul (m / magnitude a) a

/-- `Vector2D.__rsub__` exactly as written in the source: it applies
`operator.sub` with the receiver's components as the LEFT operand, so
`scalar - vector` evaluates to `(vector.x - scalar, vector.y - scalar)`. -/
def rsub (self : Vector2D) (other : ℝ) : Vector2D :=
  ⟨self.x - other, self.y - other⟩

/-- The Python expression `s - v` for a scalar `s` and vector `v`:
`float.__sub__` returns `NotImplemented`, so Python dispatches to
`v.__rsub__(s)`. -/
def scalarSubVec (s : ℝ) (v : Vector2D) : Vector2D := rsub v s

/-- Python `==` on vectors (`Vector2D.__eq__`): componentwise absolute
difference strictly below the tolerance `1e-12`. -/
def veq (a b : Vector2D) : Prop :=
  |b.x - a.x| < 1e-12 ∧ |b.y - a.y| < 1e-12

end Vector2D

open Vector2D

/-- Python `math.copysign(x, s)`: the magnitude of `x` with the sign of
`s` (real numbers carry no signed zero, so zero counts as positive). -/
def copysign (x s : ℝ) : ℝ := if s < 0 then -|x| else |x|

/-- The per-axis wrap correction inside `Model.displacement`
(src/boids/models.py): if the raw delta's doubled absolute value exceeds
the frame extent, subtract the extent in the delta's sign direction. -/
def wrap (extent delta : ℝ) : ℝ :=
  if |2 * delta| > extent then delta - copysign extent delta else delta

/-- `Model.displacement(self, other)` between two positions `p` (self)
and `q` (other) on a toroidal frame: raw delta `q - p` per axis, with
the wrap correction. -/
def displacement (frame p q : Vector2D) : Vector2D :=
  ⟨wrap frame.x (q.x - p.x), wrap frame.y (q.y - p.y)⟩

/-- `Model.distance(self, other)`: the magnitude of the displacement. -/
def dist (frame p q : Vector2D) : ℝ := magnitude (displacement frame p q)

/-- `Model.get_image(self, other)` where `self` sits at `p` and `other`
at `q`: `other.position + other.displacement(self)`. -/
def get_image (frame p q : Vector2D) : Vector2D :=
  add q (displacement frame q p)

/-- Embedding of the mutable state of a `Boid` (src/boids/models.py):
position, velocity and acceleration vectors. -/
structure Boid where
  position : Vector2D
  velocity : Vector2D
  acceleration : Vector2D

instance : Inhabited Boid := ⟨⟨Vector2D.Zero, Vector2D.Zero, Vector2D.Zero⟩⟩

/-- `Boid.max_velocity = 200`. -/
def max_velocity : ℝ := 200

/-- `Boid.max_acceleration = 50`. -/
def max_acceleration : ℝ := 50

/-- The `Boid.velocity` setter: if the new magnitude is `>=`
`max_velocity`, store `max_velocity * unit`, else store as-is. -/
def velocitySet (v : Vector2D) : Vector2D :=
  if magnitude v ≥ max_velocity then smul max_velocity (unit v) else v

/-- The `Boid.acceleration` setter: if the new magnitude is `>`
`max_acceleration`, store `max_acceleration * unit`, else store as-is. -/
def accelerationSet (a : Vector2D) : Vector2D :=
  if magnitude a > max_acceleration then smul max_acceleration (unit a) else a

/-- Assigning `boid.velocity = v` through the clamping setter. -/
def Boid.setVelocity (b : Boid) (v : Vector2D) : Boid :=
  { b with velocity := velocitySet v }

/-- Assigning `boid.acceleration = a` through the clamping setter. -/
def Boid.setAcceleration (b : Boid) (a : Vector2D) : Boid :=
  { b with acceleration := accelerationSet a }

/-- `Boid.update(timestep)`: `velocity += timestep * acceleration`
(through the setter), then
`position = (position + timestep * velocity) % frame`. -/
def Boid.update (frame : Vector2D) (b : Boid) (timestep : ℝ) : Boid :=
  let b1 := b.setVelocity (add b.velocity (smul timestep b.acceleration))
  { b1 with position := modVec (add b1.position (smul timestep b1.velocity)) frame }

/-- Python `sum` over a list of vectors: left fold of the vector
addition starting from the scalar `0`, which broadcasts into the zero
vector (`utilities.mean` calls `sum(data)`). -/
def vsum (l : List Vector2D) : Vector2D := l.foldl add Vector2D.Zero

/-- `utilities.mean`: `sum(data) * (1 / len(data))`. -/
def mean (l : List Vector2D) : Vector2D := smul (1 / (l.length : ℝ)) (vsum l)

/-- `Flock.get_neighbors(boid, population, radius)`
(src/boids/system.py): keep each candidate whose wrap-aware distance
`d` to the center satisfies `0 < d < radius`, paired with `d`. -/
def get_neighbors {α : Type} (frame center : Vector2D) (population : List α)
    (posOf : α → Vector2D) (radius : ℝ) : List (α × ℝ) :=
  population.filterMap (fun m =>
    if 0 < dist frame center (posOf m) ∧ dist frame center (posOf m) < radius
    then some (m, dist frame center (posOf m)) else none)

/-- The state of a `Flock` (src/boids/system.py) after construction:
the owning boid, the neighbor and obstacle mappings (model paired with
its frozen distance), and the four coefficients.  The shared class
frame is carried explicitly. -/
structure Flock where
  frame : Vector2D
  boid : Boid
  radius : ℝ
  neighbors : List (Boid × ℝ)
  obstacles : List (Vector2D × ℝ)
  alignment_coefficient : ℝ
  cohesion_coefficient : ℝ
  fear_coefficient : ℝ
  separation_coefficient : ℝ

/-- `Flock.__init__`: neighbors and obstacles discovered through
`get_neighbors` from the construction-time positions. -/
def mkFlock (frame : Vector2D) (boid : Boid) (population : List Boid)
    (obstacles : List Vector2D) (radius a c f s : ℝ) : Flock :=
  { frame := frame, boid := boid, radius := radius
    neighbors := get_neighbors frame boid.position population
      (fun b => b.position) radius
    obstacles := get_neighbors frame boid.position obstacles id radius
    alignment_coefficient := a, cohesion_coefficient := c
    fear_coefficient := f, separation_coefficient := s }

/-- `Flock.average_velocity`: mean of the neighbors' velocities. -/
def Flock.average_velocity (fl : Flock) : Vector2D :=
  mean (fl.neighbors.map (fun n => n.1.velocity))

/-- `Flock.center_of_mass`: mean of each neighbor's image position
relative to the owning boid (`neighbor.get_image(self.boid)`). -/
def Flock.center_of_mass (fl : Flock) : Vector2D :=
  mean (fl.neighbors.map (fun n =>
    get_image fl.frame n.1.position fl.boid.position))

/-- `Flock.steering_vector(desired_velocity)`: the zero vector when the
desired velocity is falsy (zero magnitude), otherwise
`desired.resize(max_velocity) - boid.velocity`. -/
def Flock.steering_vector (fl : Flock) (desired : Vector2D) : Vector2D :=
  if magnitude desired = 0 then Vector2D.Zero
  else sub (resizeVal desired max_velocity) fl.boid.velocity

/-- `Flock.alignment_vector`. -/
def Flock.alignment_vector (fl : Flock) : Vector2D :=
  fl.steering_vector fl.average_velocity

/-- `Flock.cohesion_vector`. -/
def Flock.cohesion_vector (fl : Flock) : Vector2D :=
  fl.steering_vector (sub fl.center_of_mass fl.boid.position)

/-- `Flock.fear_vector`: steering toward the mean of
`obstacle.displacement(self.boid) / distance` over obstacle neighbors. -/
def Flock.fear_vector (fl : Flock) : Vector2D :=
  fl.steering_vector (mean (fl.obstacles.map (fun od =>
    divScalar (displacement fl.frame od.1 fl.boid.position) od.2)))

/-- `Flock.separation_vector`: steering toward the mean of
`neighbor.displacement(self.boid) / distance` over agent neighbors. -/
def Flock.separation_vector (fl : Flock) : Vector2D :=
  fl.steering_vector (mean (fl.neighbors.map (fun nd =>
    divScalar (displacement fl.frame nd.1.position fl.boid.position) nd.2)))

/-- The impulse summed inside `Flock.apply_impulse`: starts from `Zero`;
if any agent neighbors exist, adds the alignment, cohesion and
separation contributions; if any obstacle neighbors exist, adds the
fear contribution. -/
def Flock.impulse (fl : Flock) : Vector2D :=
  let i1 := if fl.neighbors.isEmpty then Vector2D.Zero else
    add (add (add Vector2D.Zero (smul fl.alignment_coefficient fl.alignment_vector))
      (smul fl.cohesion_coefficient fl.cohesion_vector))
      (smul fl.separation_coefficient fl.separation_vector)
  if fl.obstacles.isEmpty then i1
  else add i1 (smul fl.fear_coefficient fl.fear_vector)

/-- `Flock.apply_impulse`: assigns the impulse as the owning boid's new
acceleration through the clamping setter; returns the updated boid. -/
def Flock.apply_impulse (fl : Flock) : Boid :=
  fl.boid.setAcceleration fl.impulse

/-!
`BoidSystem.update` (src/boids/system.py).  Boids are mutable objects;
their identity is modelled by list indices.  Flock construction runs
first for every boid (a list comprehension), freezing each flock's
neighbor index set and the neighbor/obstacle distances from the initial
states.  The `@cached_property` steering vectors, however, are only
computed when `apply_impulse` runs inside the per-boid loop that
interleaves `apply_impulse()` with `boid.update(timestep)`, so they
read the neighbors' states as they are at that moment.
-/

/-- Neighbor discovery for the flock of boid `i`: indices into the
initial population with the frozen distances (`Flock.__init__`). -/
def neighborIdx (frame : Vector2D) (radius : ℝ) (init : List Boid)
    (i : ℕ) : List (ℕ × ℝ) :=
  get_neighbors frame (init.getD i default).position
    (List.range init.length) (fun j => (init.getD j default).position) radius

/-- Obstacle discovery for the flock of boid `i` from the initial
states (`Flock.__init__`; obstacles are static). -/
def obstacleIdx (frame : Vector2D) (radius : ℝ) (init : List Boid)
    (obstaclePos : List Vector2D) (i : ℕ) : List (Vector2D × ℝ) :=
  get_neighbors frame (init.getD i default).position obstaclePos id radius

/-- The flock of boid `i` as its lazily cached vectors observe it at
`apply_impulse` time: frozen neighbor indices and distances, but the
neighbors' current (live) states. -/
def liveFlock (frame : Vector2D) (radius a c f s : ℝ) (states : List Boid)
    (obstacles : List (Vector2D × ℝ)) (i : ℕ) (nbrs : List (ℕ × ℝ)) : Flock :=
  { frame := frame, boid := states.getD i default, radius := radius
    neighbors := nbrs.map (fun jd => (states.getD jd.1 default, jd.2))
    obstacles := obstacles
    alignment_coefficient := a, cohesion_coefficient := c
    fear_coefficient := f, separation_coefficient := s }

/-- The `for flock in self.flocks` loop of `BoidSystem.update`: for each
boid in order, compute its impulse from the current states and
immediately integrate its motion, writing the result back. -/
def updateLoop (frame : Vector2D) (radius a c f s t : ℝ)
    (obs : ℕ → List (Vector2D × ℝ)) (nbrs : ℕ → List (ℕ × ℝ)) :
    List ℕ → List Boid → List Boid
  | [], states => states
  | i :: rest, states =>
    let fl := liveFlock frame radius a c f s states (obs i) i (nbrs i)
    let b := Boid.update frame fl.apply_impulse t
    updateLoop frame radius a c f s t obs nbrs rest (states.set i b)

/-- `BoidSystem.update(timestep)` as implemented: construct every flock
from the initial states (freezing neighbor indices and distances), then
run the fused per-boid loop. -/
def systemUpdate (frame : Vector2D) (radius a c f s t : ℝ)
    (obstaclePos : List Vector2D) (init : List Boid) : List Boid :=
  updateLoop frame radius a c f s t
    (obstacleIdx frame radius init obstaclePos)
    (neighborIdx frame radius init)
    (List.range init.length) init

/-- Modelled from the spec: the two-phase reference update that
`BoidSystem.update` is claimed to be equivalent to — first compute
every boid's impulse from the same pre-update snapshot, then integrate
every boid's motion. -/
def twoPhaseUpdate (frame : Vector2D) (radius a c f s t : ℝ)
    (obstaclePos : List Vector2D) (init : List Boid) : List Boid :=
  ((List.range init.length).map (fun i =>
    (liveFlock frame radius a c f s init
      (obstacleIdx frame radius init obstaclePos i) i
      (neighborIdx frame radius init i)).apply_impulse)).map
    (fun b => Boid.update frame b t)

/-- One externally applied operation on a boid: assigning an impulse
through the acceleration setter, or integrating by `update(timestep)`. -/
inductive BoidOp where
  | impulse (a : Vector2D)
  | step (t : ℝ)

/-- Running a sequence of impulse assignments and `update` calls on a
boid. -/
def runOps (frame : Vector2D) (b : Boid) : List BoidOp → Boid
  | [] => b
  | BoidOp.impulse a :: rest => runOps frame (b.setAcceleration a) rest
  | BoidOp.step t :: rest => runOps frame (b.update frame t) rest

/-! Helper lemmas. -/

namespace Vector2D

theorem magnitude_nonneg (a : Vector2D) : 0 ≤ magnitude a :=
  Real.sqrt_nonneg _

theorem magnitude_eval (x y m : ℝ) (hm : 0 ≤ m) (h : x * x + y * y = m * m) :
    magnitude ⟨x, y⟩ = m := by
  have : magnitude ⟨x, y⟩ = Real.sqrt (m * m) := by
    simp only [magnitude]
    rw [h]
  rw [this, show m * m = m ^ 2 by ring, Real.sqrt_sq hm]

theorem magnitude_smul (c : ℝ) (a : Vector2D) :
    magnitude (smul c a) = |c| * magnitude a := by
  simp only [magnitude, smul]
  rw [show c * a.x * (c * a.x) + c * a.y * (c * a.y)
        = c ^ 2 * (a.x * a.x + a.y * a.y) by ring,
    Real.sqrt_mul (sq_nonneg c), Real.sqrt_sq_eq_abs]

theorem magnitude_eq_zero_iff (a : Vector2D) :
    magnitude a = 0 ↔ a.x = 0 ∧ a.y = 0 := by
  simp only [magnitude]
  rw [Real.sqrt_eq_zero (add_nonneg (mul_self_nonneg _) (mul_self_nonneg _))]
  constructor
  · intro h
    constructor
    · nlinarith [sq_nonneg a.x, sq_nonneg a.y]
    · nlinarith [sq_nonneg a.x, sq_nonneg a.y]
  · rintro ⟨hx, hy⟩
    rw [hx, hy]; ring

theorem unit_eq_smul (a : Vector2D) :
    unit a = smul (1 / magnitude a) a := by
  simp only [unit, smul, Vector2D.mk.injEq]
  constructor <;> ring

theorem magnitude_unit (a : Vector2D) (h : magnitude a ≠ 0) :
    magnitude (unit a) = 1 := by
  rw [unit_eq_smul, magnitude_smul, abs_of_nonneg
    (one_div_nonneg.mpr (magnitude_nonneg a))]
  field_simp

theorem smul_zero_coeff (a : Vector2D) : smul 0 a = Zero := by
  simp [smul, Zero]

theorem smul_one (a : Vector2D) : smul 1 a = a := by
  simp [smul]

theorem fmod_eq_self {a b : ℝ} (h0 : 0 ≤ a) (h1 : a < b) : fmod a b = a := by
  have hb : 0 < b := lt_of_le_of_lt h0 h1
  have hfloor : ⌊a / b⌋ = 0 := by
    rw [Int.floor_eq_zero_iff]
    constructor
    · positivity
    · rw [div_lt_one hb] at *
      simpa using h1
  rw [fmod, hfloor]
  simp


end Vector2D

theorem wrap_neg (W d : ℝ) (hW : 0 < W) : wrap W (-d) = -wrap W d := by
  have habs : |2 * -d| = |2 * d| := by
    rw [show 2 * -d = -(2 * d) by ring, abs_neg]
  rcases lt_trichotomy d 0 with hd | hd | hd
  · simp only [wrap, copysign, habs]
    by_cases hb : |2 * d| > W
    · rw [if_pos hb, if_pos hb, if_neg (by linarith : ¬ -d < 0), if_pos hd]
      rw [abs_of_pos hW]; ring
    · rw [if_neg hb, if_neg hb]
  · subst hd
    simp [wrap, copysign, lt_asymm hW]
  · simp only [wrap, copysign, habs]
    by_cases hb : |2 * d| > W
    · rw [if_pos hb, if_pos hb, if_pos (by linarith : -d < 0),
        if_neg (by linarith : ¬ d < 0)]
      rw [abs_of_pos hW]; ring
    · rw [if_neg hb, if_neg hb]

theorem wrap_abs_le (W d : ℝ) (hW : 0 < W) (hlo : -W < d) (hhi : d < W) :
    |wrap W d| ≤ W / 2 := by
  rw [wrap]
  by_cases hb : |2 * d| > W
  · rw [if_pos hb, copysign]
    rcases lt_or_ge d 0 with hd | hd
    · have h2 : W < -(2 * d) := by
        rwa [abs_of_neg (by linarith : 2 * d < 0)] at hb
      rw [if_pos hd, abs_of_pos hW, abs_le]
      constructor <;> nlinarith
    · have h2 : W < 2 * d := by
        rwa [abs_of_nonneg (by linarith : (0:ℝ) ≤ 2 * d)] at hb
      rw [if_neg (not_lt.mpr hd), abs_of_pos hW, abs_le]
      constructor <;> nlinarith
  · rw [if_neg hb]
    rw [not_lt, abs_le] at hb
    rw [abs_le]
    constructor <;> nlinarith [hb.1, hb.2]

theorem mem_get_neighbors {α : Type} (frame center : Vector2D)
    (population : List α) (posOf : α → Vector2D) (radius : ℝ)
    (m : α) (d : ℝ) :
    (m, d) ∈ get_neighbors frame center population posOf radius ↔
      m ∈ population ∧ d = dist frame center (posOf m) ∧ 0 < d ∧ d < radius := by
  simp only [get_neighbors, List.mem_filterMap]
  constructor
  · rintro ⟨a, ha, hf⟩
    by_cases hc : 0 < dist frame center (posOf a) ∧
        dist frame center (posOf a) < radius
    · rw [if_pos hc] at hf
      have heq := Option.some.inj hf
      have h1 : a = m := congrArg Prod.fst heq
      have h2 : dist frame center (posOf a) = d := congrArg Prod.snd heq
      subst h1
      subst h2
      exact ⟨ha, rfl, hc.1, hc.2⟩
    · rw [if_neg hc] at hf
      exact absurd hf (by simp)
  · rintro ⟨hm, rfl, h1, h2⟩
    exact ⟨m, hm, by rw [if_pos ⟨h1, h2⟩]⟩

theorem Vector2D.eq_of_comp {a b : Vector2D} (hx : a.x = b.x)
    (hy : a.y = b.y) : a = b := by
  cases a; cases b; simp_all

theorem wrap_small {W d : ℝ} (h : |2 * d| ≤ W) : wrap W d = d :=
  if_neg (not_lt.mpr h)

theorem displacement_small {W Hh px py qx qy : ℝ}
    (hx : |2 * (qx - px)| ≤ W) (hy : |2 * (qy - py)| ≤ Hh) :
    displacement ⟨W, Hh⟩ ⟨px, py⟩ ⟨qx, qy⟩ = ⟨qx - px, qy - py⟩ := by
  simp only [displacement]
  rw [wrap_small hx, wrap_small hy]

theorem dist_eval {W Hh px py qx qy m : ℝ} (hm : 0 ≤ m)
    (hx : |2 * (qx - px)| ≤ W) (hy : |2 * (qy - py)| ≤ Hh)
    (h : (qx - px) * (qx - px) + (qy - py) * (qy - py) = m * m) :
    dist ⟨W, Hh⟩ ⟨px, py⟩ ⟨qx, qy⟩ = m := by
  rw [dist, displacement_small hx hy]
  exact magnitude_eval _ _ _ hm h

theorem mean_singleton (v : Vector2D) : mean [v] = v := by
  simp only [mean, vsum, List.foldl, List.length, add, smul, Vector2D.Zero]
  apply Vector2D.eq_of_comp <;> simp

theorem update_acceleration (frame : Vector2D) (b : Boid) (t : ℝ) :
    (Boid.update frame b t).acceleration = b.acceleration := rfl

theorem update_velocity (frame : Vector2D) (b : Boid) (t : ℝ) :
    (Boid.update frame b t).velocity
      = velocitySet (add b.velocity (smul t b.acceleration)) := rfl

theorem magnitude_velocitySet_le (v : Vector2D) :
    magnitude (velocitySet v) ≤ max_velocity := by
  rw [velocitySet]
  by_cases h : magnitude v ≥ max_velocity
  · have hne : magnitude v ≠ 0 := by
      intro h0
      rw [h0] at h
      norm_num [max_velocity] at h
    rw [if_pos h, magnitude_smul, magnitude_unit _ hne,
      abs_of_nonneg (by norm_num [max_velocity] : (0:ℝ) ≤ max_velocity)]
    norm_num
  · rw [if_neg h]
    linarith [not_le.mp h]

theorem magnitude_accelerationSet_le (a : Vector2D) :
    magnitude (accelerationSet a) ≤ max_acceleration := by
  rw [accelerationSet]
  by_cases h : magnitude a > max_acceleration
  · have hne : magnitude a ≠ 0 := by
      intro h0
      rw [h0] at h
      norm_num [max_acceleration] at h
    rw [if_pos h, magnitude_smul, magnitude_unit _ hne,
      abs_of_nonneg (by norm_num [max_acceleration] : (0:ℝ) ≤ max_acceleration)]
    norm_num
  · rw [if_neg h]
    linarith [not_lt.mp h]

theorem runOps_append (frame : Vector2D) (b : Boid) (l1 l2 : List BoidOp) :
    runOps frame b (l1 ++ l2) = runOps frame (runOps frame b l1) l2 := by
  induction l1 generalizing b with
  | nil => rfl
  | cons op rest ih =>
    cases op with
    | impulse a => simpa [runOps] using ih (b.setAcceleration a)
    | step t => simpa [runOps] using ih (b.update frame t)

theorem runOps_acc_le (frame : Vector2D) (b : Boid) (ops : List BoidOp)
    (hacc : magnitude b.acceleration ≤ max_acceleration) :
    magnitude (runOps frame b ops).acceleration ≤ max_acceleration := by
  induction ops generalizing b with
  | nil => exact hacc
  | cons op rest ih =>
    cases op with
    | impulse a =>
      exact ih (b.setAcceleration a) (magnitude_accelerationSet_le a)
    | step t =>
      exact ih (b.update frame t) (by rwa [update_acceleration])

theorem wrap_shift (W d : ℝ) (hW : 0 < W) :
    wrap W d - d = 0 ∨ wrap W d - d = -W ∨ wrap W d - d = W := by
  rw [wrap]
  by_cases hb : |2 * d| > W
  · rw [if_pos hb, copysign]
    rcases lt_or_ge d 0 with hd | hd
    · right; right
      rw [if_pos hd, abs_of_pos hW]
      ring
    · right; left
      rw [if_neg (not_lt.mpr hd), abs_of_pos hW]
      ring
  · left
    rw [if_neg hb]
    ring

theorem smul_smul_comp (c d : ℝ) (v : Vector2D) :
    smul c (smul d v) = smul (c * d) v := by
  apply Vector2D.eq_of_comp <;> simp [smul] <;> ring

theorem magnitude_resizeVal (v : Vector2D) (m : ℝ)
    (hv : magnitude v ≠ 0) (hm : 0 ≤ m) :
    magnitude (resizeVal v m) = m := by
  have hpos : 0 < magnitude v := lt_of_le_of_ne (magnitude_nonneg v) (Ne.symm hv)
  rw [resizeVal, magnitude_smul, abs_of_nonneg (by positivity)]
  field_simp

/-! Claim theorems. -/

/-- Claim C4: the spec requires `s - v` to broadcast the scalar with
exact elementwise semantics, i.e. `s - v = (s - v.x, s - v.y)`.  The
code's `__rsub__` instead passes the vector components as the LEFT
operand of `operator.sub`: at `s = 1`, `v = (3, 5)` it produces
`(2, 4)` where the claim requires `(-2, -4)`. -/
theorem C4_rsub_reflected :
    scalarSubVec 1 ⟨3, 5⟩ = ⟨2, 4⟩ ∧
      scalarSubVec 1 ⟨3, 5⟩ ≠ (⟨1 - 3, 1 - 5⟩ : Vector2D) := by
  constructor
  · apply Vector2D.eq_of_comp <;> norm_num [scalarSubVec, rsub]
  · intro h
    have := congrArg Vector2D.x h
    simp only [scalarSubVec, rsub] at this
    norm_num at this

/-- Claim C5: for every pair of positions on a frame with positive
extents, the wrap-aware displacement is exactly antisymmetric:
`displacement(a, b) = -displacement(b, a)` (exact equality, hence in
particular within the `1e-12` equality tolerance). -/
theorem C5_displacement_antisymm (W Hh : ℝ) (hW : 0 < W) (hH : 0 < Hh)
    (a b : Vector2D) :
    displacement ⟨W, Hh⟩ a b = neg (displacement ⟨W, Hh⟩ b a) := by
  apply Vector2D.eq_of_comp
  · show wrap W (b.x - a.x) = -wrap W (a.x - b.x)
    rw [show b.x - a.x = -(a.x - b.x) by ring, wrap_neg _ _ hW]
  · show wrap Hh (b.y - a.y) = -wrap Hh (a.y - b.y)
    rw [show b.y - a.y = -(a.y - b.y) by ring, wrap_neg _ _ hH]

theorem C5_witness :
    (0:ℝ) < 10 ∧
      displacement ⟨10, 10⟩ ⟨1, 2⟩ ⟨9, 3⟩
        = neg (displacement ⟨10, 10⟩ ⟨9, 3⟩ ⟨1, 2⟩) :=
  ⟨by norm_num,
    C5_displacement_antisymm 10 10 (by norm_num) (by norm_num) ⟨1, 2⟩ ⟨9, 3⟩⟩

/-- Claim C6: for positions normalized into the frame, each component
of the displacement has absolute value at most half the corresponding
frame extent, and hence the wrap-aware distance is at most
`sqrt((W/2)^2 + (H/2)^2)`. -/
theorem C6_displacement_bound (W Hh : ℝ) (hW : 0 < W) (hH : 0 < Hh)
    (a b : Vector2D)
    (hax : 0 ≤ a.x) (hax2 : a.x < W) (hay : 0 ≤ a.y) (hay2 : a.y < Hh)
    (hbx : 0 ≤ b.x) (hbx2 : b.x < W) (hby : 0 ≤ b.y) (hby2 : b.y < Hh) :
    |(displacement ⟨W, Hh⟩ a b).x| ≤ W / 2 ∧
    |(displacement ⟨W, Hh⟩ a b).y| ≤ Hh / 2 ∧
    dist ⟨W, Hh⟩ a b ≤ Real.sqrt ((W / 2) ^ 2 + (Hh / 2) ^ 2) := by
  have hx : |(displacement ⟨W, Hh⟩ a b).x| ≤ W / 2 :=
    wrap_abs_le W (b.x - a.x) hW (by linarith) (by linarith)
  have hy : |(displacement ⟨W, Hh⟩ a b).y| ≤ Hh / 2 :=
    wrap_abs_le Hh (b.y - a.y) hH (by linarith) (by linarith)
  refine ⟨hx, hy, ?_⟩
  rw [dist, magnitude]
  apply Real.sqrt_le_sqrt
  have hxx : (displacement ⟨W, Hh⟩ a b).x * (displacement ⟨W, Hh⟩ a b).x
      ≤ (W / 2) * (W / 2) := by
    have h2 := mul_self_le_mul_self (abs_nonneg _) hx
    rwa [abs_mul_abs_self] at h2
  have hyy : (displacement ⟨W, Hh⟩ a b).y * (displacement ⟨W, Hh⟩ a b).y
      ≤ (Hh / 2) * (Hh / 2) := by
    have h2 := mul_self_le_mul_self (abs_nonneg _) hy
    rwa [abs_mul_abs_self] at h2
  nlinarith [hxx, hyy]

theorem C6_witness :
    (0:ℝ) < 40 ∧ (0:ℝ) < 30 ∧
      dist ⟨40, 30⟩ ⟨5, 5⟩ ⟨30, 15⟩ ≤ Real.sqrt ((40 / 2) ^ 2 + (30 / 2) ^ 2) :=
  ⟨by norm_num, by norm_num,
    (C6_displacement_bound 40 30 (by norm_num) (by norm_num) ⟨5, 5⟩ ⟨30, 15⟩
      (by norm_num) (by norm_num) (by norm_num) (by norm_num)
      (by norm_num) (by norm_num) (by norm_num) (by norm_num)).2.2⟩

/-- Claim C7: `get_neighbors` includes a candidate (paired with its
stored distance) in the returned mapping exactly when the candidate is
drawn from the population and its wrap-aware distance `d` to the owner
satisfies `0 < d < radius`, strict at both ends — the owner itself at
distance `0` and anything at or beyond `radius` are excluded. -/
theorem C7_get_neighbors_mem {α : Type} (frame center : Vector2D)
    (population : List α) (posOf : α → Vector2D) (radius : ℝ)
    (m : α) (d : ℝ) :
    (m, d) ∈ get_neighbors frame center population posOf radius ↔
      m ∈ population ∧ d = dist frame center (posOf m) ∧
        0 < d ∧ d < radius :=
  mem_get_neighbors frame center population posOf radius m d

/-- Claim C8: `resize` fails (returns `none`, modelling the
`ZeroDivisionError`) exactly when the receiver's magnitude is zero; on
any vector of nonzero magnitude it succeeds with `(m / |v|) * v`, whose
magnitude is the requested target `m` and which points in the same
direction (a positive scalar multiple of `v` for a positive target). -/
theorem C8_resize_spec (v : Vector2D) (m : ℝ) :
    (resize v m = none ↔ magnitude v = 0) ∧
    (magnitude v ≠ 0 →
      resize v m = some (resizeVal v m) ∧
      (0 ≤ m → magnitude (resizeVal v m) = m) ∧
      (0 < m → ∃ c : ℝ, 0 < c ∧ resizeVal v m = smul c v)) := by
  constructor
  · constructor
    · intro h
      by_contra hne
      rw [resize, if_neg hne] at h
      exact Option.some_ne_none _ h
    · intro h
      rw [resize, if_pos h]
  · intro hne
    refine ⟨by rw [resize, if_neg hne, resizeVal], ?_, ?_⟩
    · intro hm
      exact magnitude_resizeVal v m hne hm
    · intro hm
      have hpos : 0 < magnitude v :=
        lt_of_le_of_ne (magnitude_nonneg v) (Ne.symm hne)
      exact ⟨m / magnitude v, by positivity, rfl⟩

theorem C8_witness :
    magnitude (⟨3, 4⟩ : Vector2D) ≠ 0 ∧
      resize ⟨3, 4⟩ 7 = some (resizeVal ⟨3, 4⟩ 7) ∧
      magnitude (resizeVal ⟨3, 4⟩ 7) = 7 := by
  have h5 : magnitude (⟨3, 4⟩ : Vector2D) = 5 :=
    magnitude_eval 3 4 5 (by norm_num) (by norm_num)
  have hne : magnitude (⟨3, 4⟩ : Vector2D) ≠ 0 := by
    rw [h5]; norm_num
  exact ⟨hne, ((C8_resize_spec ⟨3, 4⟩ 7).2 hne).1,
    ((C8_resize_spec ⟨3, 4⟩ 7).2 hne).2.1 (by norm_num)⟩

/-- Claim C9: every distance stored in the neighbor and obstacle
mappings of a `Flock` built by the constructor (via `get_neighbors`) is
strictly positive, so the divisions by distance in
`separation_vector` and `fear_vector` never divide by zero. -/
theorem C9_positive_distances (frame : Vector2D) (boid : Boid)
    (population : List Boid) (obstacles : List Vector2D)
    (radius a c f s : ℝ) :
    (∀ p ∈ (mkFlock frame boid population obstacles radius a c f s).neighbors,
      0 < p.2) ∧
    (∀ p ∈ (mkFlock frame boid population obstacles radius a c f s).obstacles,
      0 < p.2) := by
  constructor
  · intro p hp
    simp only [mkFlock] at hp
    obtain ⟨m, d⟩ := p
    exact ((mem_get_neighbors _ _ _ _ _ _ _).mp hp).2.2.1
  · intro p hp
    simp only [mkFlock] at hp
    obtain ⟨m, d⟩ := p
    exact ((mem_get_neighbors _ _ _ _ _ _ _).mp hp).2.2.1

theorem C9_witness :
    ((⟨⟨3, 4⟩, Vector2D.Zero, Vector2D.Zero⟩, (5:ℝ)) ∈
      (mkFlock ⟨1000, 1000⟩ ⟨⟨0, 0⟩, Vector2D.Zero, Vector2D.Zero⟩
        [⟨⟨3, 4⟩, Vector2D.Zero, Vector2D.Zero⟩] [] 10 1 1 1 1).neighbors) ∧
    (0:ℝ) < 5 := by
  have hd : dist ⟨1000, 1000⟩ ⟨0, 0⟩ ⟨3, 4⟩ = 5 :=
    dist_eval (by norm_num) (by norm_num) (by norm_num) (by norm_num)
  have hmem : ((⟨⟨3, 4⟩, Vector2D.Zero, Vector2D.Zero⟩, (5:ℝ)) ∈
      (mkFlock ⟨1000, 1000⟩ ⟨⟨0, 0⟩, Vector2D.Zero, Vector2D.Zero⟩
        [⟨⟨3, 4⟩, Vector2D.Zero, Vector2D.Zero⟩] [] 10 1 1 1 1).neighbors) := by
    simp only [mkFlock]
    exact (mem_get_neighbors _ _ _ _ _ _ _).mpr
      ⟨List.mem_singleton.mpr rfl, hd.symm, by norm_num, by norm_num⟩
  exact ⟨hmem,
    (C9_positive_distances ⟨1000, 1000⟩ ⟨⟨0, 0⟩, Vector2D.Zero, Vector2D.Zero⟩
      [⟨⟨3, 4⟩, Vector2D.Zero, Vector2D.Zero⟩] [] 10 1 1 1 1).1 _ hmem⟩

/-- Claim C10: on a frame with positive extents, `get_image(a, b)` is a
periodic copy of the position of `a`: it differs from `a.position` by
`k * width` in x and `l * height` in y for some `k, l` in `{-1, 0, 1}`
(stated for all positions; positions normalized into the frame are the
special case the claim quantifies over). -/
theorem C10_get_image_periodic (W Hh : ℝ) (hW : 0 < W) (hH : 0 < Hh)
    (a b : Vector2D) :
    ∃ k l : ℤ, (k = -1 ∨ k = 0 ∨ k = 1) ∧ (l = -1 ∨ l = 0 ∨ l = 1) ∧
      get_image ⟨W, Hh⟩ a b = add a ⟨(k : ℝ) * W, (l : ℝ) * Hh⟩ := by
  have hgx : (get_image ⟨W, Hh⟩ a b).x = b.x + wrap W (a.x - b.x) := rfl
  have hgy : (get_image ⟨W, Hh⟩ a b).y = b.y + wrap Hh (a.y - b.y) := rfl
  have hax : ∃ k : ℤ, (k = -1 ∨ k = 0 ∨ k = 1) ∧
      (get_image ⟨W, Hh⟩ a b).x = a.x + (k : ℝ) * W := by
    rcases wrap_shift W (a.x - b.x) hW with h | h | h
    · exact ⟨0, Or.inr (Or.inl rfl), by rw [hgx]; push_cast; linarith⟩
    · exact ⟨-1, Or.inl rfl, by rw [hgx]; push_cast; linarith⟩
    · exact ⟨1, Or.inr (Or.inr rfl), by rw [hgx]; push_cast; linarith⟩
  have hay : ∃ l : ℤ, (l = -1 ∨ l = 0 ∨ l = 1) ∧
      (get_image ⟨W, Hh⟩ a b).y = a.y + (l : ℝ) * Hh := by
    rcases wrap_shift Hh (a.y - b.y) hH with h | h | h
    · exact ⟨0, Or.inr (Or.inl rfl), by rw [hgy]; push_cast; linarith⟩
    · exact ⟨-1, Or.inl rfl, by rw [hgy]; push_cast; linarith⟩
    · exact ⟨1, Or.inr (Or.inr rfl), by rw [hgy]; push_cast; linarith⟩
  obtain ⟨k, hk, hkx⟩ := hax
  obtain ⟨l, hl, hly⟩ := hay
  exact ⟨k, l, hk, hl, Vector2D.eq_of_comp (by rw [hkx]; rfl) (by rw [hly]; rfl)⟩

theorem C10_witness :
    (0:ℝ) < 10 ∧
      ∃ k l : ℤ, (k = -1 ∨ k = 0 ∨ k = 1) ∧ (l = -1 ∨ l = 0 ∨ l = 1) ∧
        get_image ⟨10, 10⟩ ⟨9, 9⟩ ⟨1, 1⟩
          = add ⟨9, 9⟩ ⟨(k : ℝ) * 10, (l : ℝ) * 10⟩ :=
  ⟨by norm_num,
    C10_get_image_periodic 10 10 (by norm_num) (by norm_num) ⟨9, 9⟩ ⟨1, 1⟩⟩

/-- Claim C2 (amended): after any `update` call the velocity magnitude
never exceeds `max_velocity`; the acceleration magnitude never exceeds
`max_acceleration` provided the boid's starting acceleration is within
that bound (the raw constructor can store an unclamped acceleration and
`update` never touches it — see the counterexample); an assigned
velocity of magnitude `>= max_velocity` is rescaled to exactly
`max_velocity` along the same direction, and an assigned acceleration
of magnitude `>= max_acceleration` is stored with magnitude exactly
`max_acceleration` as a positive multiple of itself. -/
theorem C2_clamp_invariants (frame : Vector2D) (b : Boid)
    (ops : List BoidOp) (t : ℝ) :
    magnitude (runOps frame b (ops ++ [BoidOp.step t])).velocity
        ≤ max_velocity ∧
    (magnitude b.acceleration ≤ max_acceleration →
      magnitude (runOps frame b (ops ++ [BoidOp.step t])).acceleration
        ≤ max_acceleration) ∧
    (∀ v : Vector2D, max_velocity ≤ magnitude v →
      velocitySet v = smul max_velocity (unit v) ∧
      magnitude (velocitySet v) = max_velocity) ∧
    (∀ a2 : Vector2D, max_acceleration ≤ magnitude a2 →
      magnitude (accelerationSet a2) = max_acceleration ∧
      ∃ c : ℝ, 0 < c ∧ accelerationSet a2 = smul c a2) := by
  refine ⟨?_, ?_, ?_, ?_⟩
  · rw [runOps_append]
    show magnitude ((runOps frame b ops).update frame t).velocity ≤ _
    rw [update_velocity]
    exact magnitude_velocitySet_le _
  · intro hacc
    rw [runOps_append]
    show magnitude ((runOps frame b ops).update frame t).acceleration ≤ _
    rw [update_acceleration]
    exact runOps_acc_le frame b ops hacc
  · intro v hv
    have hne : magnitude v ≠ 0 := by
      intro h0
      rw [h0] at hv
      norm_num [max_velocity] at hv
    rw [velocitySet, if_pos hv]
    refine ⟨rfl, ?_⟩
    rw [magnitude_smul, magnitude_unit _ hne,
      abs_of_nonneg (by norm_num [max_velocity] : (0:ℝ) ≤ max_velocity)]
    ring
  · intro a2 ha2
    rcases lt_or_eq_of_le ha2 with hlt | heq
    · have hne : magnitude a2 ≠ 0 := by
        intro h0
        rw [h0] at hlt
        norm_num [max_acceleration] at hlt
      have hpos : 0 < magnitude a2 :=
        lt_of_le_of_ne (magnitude_nonneg a2) (Ne.symm hne)
      rw [accelerationSet, if_pos hlt]
      refine ⟨?_, max_acceleration / magnitude a2,
        div_pos (by norm_num [max_acceleration]) hpos, ?_⟩
      · rw [magnitude_smul, magnitude_unit _ hne,
          abs_of_nonneg (by norm_num [max_acceleration] : (0:ℝ) ≤ max_acceleration)]
        ring
      · rw [unit_eq_smul, smul_smul_comp]
        congr 1
        field_simp
    · rw [accelerationSet, if_neg (by rw [← heq]; exact lt_irrefl _)]
      exact ⟨heq.symm, 1, by norm_num, (Vector2D.smul_one a2).symm⟩

/-- Claim C2, counterexample to the unamended claim: a boid constructed
with raw acceleration `(100, 0)` (the constructor stores it without
clamping), subjected to the impulse-free sequence `[update 1]`, still
has acceleration magnitude `100 > max_acceleration` after the update. -/
theorem C2_counterexample :
    ¬ magnitude (runOps ⟨1000, 1000⟩
        ⟨⟨0, 0⟩, ⟨0, 0⟩, ⟨100, 0⟩⟩ [BoidOp.step 1]).acceleration
      ≤ max_acceleration := by
  have hval : (runOps ⟨1000, 1000⟩
      ⟨⟨0, 0⟩, ⟨0, 0⟩, ⟨100, 0⟩⟩ [BoidOp.step 1]).acceleration
      = ⟨100, 0⟩ := rfl
  rw [hval, magnitude_eval 100 0 100 (by norm_num) (by norm_num),
    max_acceleration]
  norm_num

theorem C2_witness :
    magnitude (runOps ⟨1000, 1000⟩ ⟨⟨0, 0⟩, ⟨0, 0⟩, ⟨0, 0⟩⟩
        ([] ++ [BoidOp.step 1])).velocity ≤ max_velocity ∧
    magnitude (Boid.acceleration ⟨⟨0, 0⟩, ⟨0, 0⟩, ⟨0, 0⟩⟩)
        ≤ max_acceleration ∧
    magnitude (runOps ⟨1000, 1000⟩ ⟨⟨0, 0⟩, ⟨0, 0⟩, ⟨0, 0⟩⟩
        ([] ++ [BoidOp.step 1])).acceleration ≤ max_acceleration := by
  have hacc : magnitude (Boid.acceleration ⟨⟨0, 0⟩, ⟨0, 0⟩, ⟨0, 0⟩⟩)
      ≤ max_acceleration := by
    rw [show Boid.acceleration ⟨⟨0, 0⟩, ⟨0, 0⟩, ⟨0, 0⟩⟩ = ⟨0, 0⟩ from rfl,
      magnitude_eval 0 0 0 le_rfl (by norm_num), max_acceleration]
    norm_num
  exact ⟨(C2_clamp_invariants ⟨1000, 1000⟩ ⟨⟨0, 0⟩, ⟨0, 0⟩, ⟨0, 0⟩⟩ [] 1).1,
    hacc,
    (C2_clamp_invariants ⟨1000, 1000⟩ ⟨⟨0, 0⟩, ⟨0, 0⟩, ⟨0, 0⟩⟩ [] 1).2.1 hacc⟩

theorem add_Zero_left (v : Vector2D) : add Vector2D.Zero v = v := by
  apply Vector2D.eq_of_comp <;> simp [add, Vector2D.Zero]

theorem impulse_fear_only (fl : Flock) (hn : fl.neighbors = [])
    (ho : fl.obstacles ≠ []) :
    fl.impulse = smul fl.fear_coefficient fl.fear_vector := by
  cases hobs : fl.obstacles with
  | nil => exact absurd hobs ho
  | cons o os =>
    simp only [Flock.impulse, hn, hobs, List.isEmpty_nil, List.isEmpty_cons,
      if_true, Bool.false_eq_true, if_false]
    exact add_Zero_left _

/-- Claim C3 (amended): for a Flock with no agent neighbors and at
least one obstacle neighbor within radius, `apply_impulse` assigns as
the boid's acceleration exactly the acceleration-setter clamp of
`fear_coefficient * fear_vector` (the alignment, cohesion and
separation components contribute nothing), and this equals
`fear_coefficient * fear_vector` exactly whenever that product's
magnitude is within `max_acceleration`.  The unamended claim fails
because the setter rescales the product when it exceeds
`max_acceleration` — see the counterexample. -/
theorem C3_fear_only (fl : Flock) (hn : fl.neighbors = [])
    (ho : fl.obstacles ≠ []) :
    fl.apply_impulse.acceleration
        = accelerationSet (smul fl.fear_coefficient fl.fear_vector) ∧
    (magnitude (smul fl.fear_coefficient fl.fear_vector) ≤ max_acceleration →
      fl.apply_impulse.acceleration
        = smul fl.fear_coefficient fl.fear_vector) := by
  have himp := impulse_fear_only fl hn ho
  constructor
  · show accelerationSet fl.impulse = _
    rw [himp]
  · intro hle
    show accelerationSet fl.impulse = _
    rw [himp, accelerationSet, if_neg (not_lt.mpr hle)]

theorem C3_counterexample :
    (mkFlock ⟨1000, 1000⟩ ⟨⟨0, 0⟩, ⟨0, 0⟩, ⟨0, 0⟩⟩ [] [⟨3, 4⟩]
        10 10 10 10 10).apply_impulse.acceleration
      ≠ smul (mkFlock ⟨1000, 1000⟩ ⟨⟨0, 0⟩, ⟨0, 0⟩, ⟨0, 0⟩⟩ [] [⟨3, 4⟩]
        10 10 10 10 10).fear_coefficient
        (mkFlock ⟨1000, 1000⟩ ⟨⟨0, 0⟩, ⟨0, 0⟩, ⟨0, 0⟩⟩ [] [⟨3, 4⟩]
        10 10 10 10 10).fear_vector := by
  have hd : dist ⟨1000, 1000⟩ ⟨0, 0⟩ ⟨3, 4⟩ = 5 :=
    dist_eval (by norm_num) (by norm_num) (by norm_num) (by norm_num)
  have ho : (mkFlock ⟨1000, 1000⟩ ⟨⟨0, 0⟩, ⟨0, 0⟩, ⟨0, 0⟩⟩ [] [⟨3, 4⟩]
      10 10 10 10 10).obstacles = [(⟨3, 4⟩, (5:ℝ))] := by
    simp only [mkFlock, get_neighbors, List.filterMap_cons, List.filterMap_nil, id]
    rw [hd]
    norm_num
  have hn : (mkFlock ⟨1000, 1000⟩ ⟨⟨0, 0⟩, ⟨0, 0⟩, ⟨0, 0⟩⟩ [] [⟨3, 4⟩]
      10 10 10 10 10).neighbors = [] := by
    simp [mkFlock, get_neighbors]
  have hfear : (mkFlock ⟨1000, 1000⟩ ⟨⟨0, 0⟩, ⟨0, 0⟩, ⟨0, 0⟩⟩ [] [⟨3, 4⟩]
      10 10 10 10 10).fear_vector = ⟨-120, -160⟩ := by
    rw [Flock.fear_vector, ho]
    have hdisp : displacement ⟨1000, 1000⟩ ⟨3, 4⟩ ⟨0, 0⟩ = ⟨-3, -4⟩ := by
      rw [displacement_small (by norm_num) (by norm_num)]
      apply Vector2D.eq_of_comp <;> norm_num
    simp only [mkFlock, List.map_cons, List.map_nil]
    rw [hdisp, show divScalar ⟨-3, -4⟩ (5:ℝ) = ⟨-3/5, -4/5⟩ by
      apply Vector2D.eq_of_comp <;> simp [divScalar]]
    rw [mean_singleton, Flock.steering_vector]
    have hm1 : magnitude ⟨-3/5, -4/5⟩ = 1 :=
      magnitude_eval _ _ _ (by norm_num) (by norm_num)
    simp only [resizeVal]
    rw [hm1, if_neg (by norm_num : ¬ (1:ℝ) = 0)]
    apply Vector2D.eq_of_comp <;> simp [sub, smul, max_velocity] <;> norm_num
  have himp := impulse_fear_only _ hn (by rw [ho]; exact (by simp))
  have hprod : smul (10:ℝ) (⟨-120, -160⟩ : Vector2D) = ⟨-1200, -1600⟩ := by
    apply Vector2D.eq_of_comp <;> simp [smul] <;> norm_num
  have hco : (mkFlock ⟨1000, 1000⟩ ⟨⟨0, 0⟩, ⟨0, 0⟩, ⟨0, 0⟩⟩ [] [⟨3, 4⟩]
      10 10 10 10 10).fear_coefficient = 10 := rfl
  intro hcontra
  rw [show (mkFlock ⟨1000, 1000⟩ ⟨⟨0, 0⟩, ⟨0, 0⟩, ⟨0, 0⟩⟩ [] [⟨3, 4⟩]
      10 10 10 10 10).apply_impulse.acceleration
      = accelerationSet ((mkFlock ⟨1000, 1000⟩ ⟨⟨0, 0⟩, ⟨0, 0⟩, ⟨0, 0⟩⟩ [] [⟨3, 4⟩]
        10 10 10 10 10).impulse) from rfl, himp, hco, hfear, hprod] at hcontra
  have hm2000 : magnitude ⟨-1200, -1600⟩ = 2000 :=
    magnitude_eval _ _ _ (by norm_num) (by norm_num)
  rw [accelerationSet] at hcontra
  rw [hm2000] at hcontra
  rw [if_pos (by norm_num [max_acceleration] : max_acceleration < (2000:ℝ))] at hcontra
  simp only [unit, hm2000, smul] at hcontra
  have hx := congrArg Vector2D.x hcontra
  simp only at hx
  norm_num [max_acceleration] at hx

theorem C3_witness :
    (mkFlock ⟨1000, 1000⟩ ⟨⟨0, 0⟩, ⟨0, 0⟩, ⟨0, 0⟩⟩ [] [⟨3, 4⟩]
        10 1 1 (1/10) 1).neighbors = [] ∧
    (mkFlock ⟨1000, 1000⟩ ⟨⟨0, 0⟩, ⟨0, 0⟩, ⟨0, 0⟩⟩ [] [⟨3, 4⟩]
        10 1 1 (1/10) 1).obstacles ≠ [] ∧
    (mkFlock ⟨1000, 1000⟩ ⟨⟨0, 0⟩, ⟨0, 0⟩, ⟨0, 0⟩⟩ [] [⟨3, 4⟩]
        10 1 1 (1/10) 1).apply_impulse.acceleration
      = accelerationSet (smul
        (mkFlock ⟨1000, 1000⟩ ⟨⟨0, 0⟩, ⟨0, 0⟩, ⟨0, 0⟩⟩ [] [⟨3, 4⟩]
          10 1 1 (1/10) 1).fear_coefficient
        (mkFlock ⟨1000, 1000⟩ ⟨⟨0, 0⟩, ⟨0, 0⟩, ⟨0, 0⟩⟩ [] [⟨3, 4⟩]
          10 1 1 (1/10) 1).fear_vector) := by
  have hd : dist ⟨1000, 1000⟩ ⟨0, 0⟩ ⟨3, 4⟩ = 5 :=
    dist_eval (by norm_num) (by norm_num) (by norm_num) (by norm_num)
  have hn : (mkFlock ⟨1000, 1000⟩ ⟨⟨0, 0⟩, ⟨0, 0⟩, ⟨0, 0⟩⟩ [] [⟨3, 4⟩]
      10 1 1 (1/10) 1).neighbors = [] := by
    simp [mkFlock, get_neighbors]
  have ho : (mkFlock ⟨1000, 1000⟩ ⟨⟨0, 0⟩, ⟨0, 0⟩, ⟨0, 0⟩⟩ [] [⟨3, 4⟩]
      10 1 1 (1/10) 1).obstacles = [(⟨3, 4⟩, (5:ℝ))] := by
    simp only [mkFlock, get_neighbors, List.filterMap_cons, List.filterMap_nil, id]
    rw [hd]
    norm_num
  have hne : (mkFlock ⟨1000, 1000⟩ ⟨⟨0, 0⟩, ⟨0, 0⟩, ⟨0, 0⟩⟩ [] [⟨3, 4⟩]
      10 1 1 (1/10) 1).obstacles ≠ [] := by
    rw [ho]
    simp
  exact ⟨hn, hne, (C3_fear_only _ hn hne).1⟩

theorem add_Zero_right (v : Vector2D) : add v Vector2D.Zero = v := by
  apply Vector2D.eq_of_comp <;> simp [add, Vector2D.Zero]

theorem steering_eval (fl : Flock) (d : Vector2D) (m : ℝ)
    (hm : magnitude d = m) (hm0 : m ≠ 0) :
    fl.steering_vector d = sub (smul (max_velocity / m) d) fl.boid.velocity := by
  rw [Flock.steering_vector, if_neg (by rw [hm]; exact hm0), resizeVal, hm]

theorem velocitySet_small (v : Vector2D) (m : ℝ) (hm : magnitude v = m)
    (h : m < max_velocity) : velocitySet v = v := by
  rw [velocitySet, if_neg]
  rw [hm]
  exact not_le.mpr h

theorem accelerationSet_big (a : Vector2D) (m : ℝ) (hm : magnitude a = m)
    (h : max_acceleration < m) :
    accelerationSet a = smul (max_acceleration / m) a := by
  rw [accelerationSet, if_pos (by rw [hm]; exact h), unit_eq_smul,
    smul_smul_comp, hm, mul_one_div]

theorem accelerationSet_small (a : Vector2D) (m : ℝ) (hm : magnitude a = m)
    (h : m ≤ max_acceleration) : accelerationSet a = a := by
  rw [accelerationSet, if_neg]
  rw [hm]
  exact not_lt.mpr h

theorem modVec_in_range (x y W Hh : ℝ) (hx0 : 0 ≤ x) (hx1 : x < W)
    (hy0 : 0 ≤ y) (hy1 : y < Hh) :
    modVec ⟨x, y⟩ ⟨W, Hh⟩ = ⟨x, y⟩ := by
  simp only [modVec]
  rw [fmod_eq_self hx0 hx1, fmod_eq_self hy0 hy1]

theorem impulse_alignment_only (fl : Flock)
    (ha : fl.alignment_coefficient = 1) (hc : fl.cohesion_coefficient = 0)
    (hs : fl.separation_coefficient = 0) (ho : fl.obstacles = [])
    (hn : fl.neighbors.isEmpty = false) :
    fl.impulse = fl.alignment_vector := by
  simp only [Flock.impulse, ho, List.isEmpty_nil, if_true, hn,
    Bool.false_eq_true, if_false, ha, hc, hs, smul_zero_coeff,
    Vector2D.smul_one, add_Zero_left, add_Zero_right]

theorem apply_impulse_alignment_one (frame : Vector2D) (r dn a2 c2 f2 s2 : ℝ)
    (bd nb : Boid) (m : ℝ) (ha : a2 = 1) (hc : c2 = 0) (hs : s2 = 0)
    (hm : magnitude nb.velocity = m) (hm0 : m ≠ 0) :
    (⟨frame, bd, r, [(nb, dn)], [], a2, c2, f2, s2⟩ : Flock).apply_impulse
      = { bd with
          acceleration :=
            accelerationSet
              (sub (smul (max_velocity / m) nb.velocity) bd.velocity) } := by
  have himp : (⟨frame, bd, r, [(nb, dn)], [], a2, c2, f2, s2⟩ : Flock).impulse
      = sub (smul (max_velocity / m) nb.velocity) bd.velocity := by
    rw [impulse_alignment_only ⟨frame, bd, r, [(nb, dn)], [], a2, c2, f2, s2⟩
        ha hc hs rfl (by rfl), Flock.alignment_vector, Flock.average_velocity]
    simp only [List.map_cons, List.map_nil]
    rw [mean_singleton, steering_eval _ _ m hm hm0]
  rw [Flock.apply_impulse, Boid.setAcceleration, himp]

theorem apply_impulse_alignment_zerovel (frame : Vector2D)
    (r dn a2 c2 f2 s2 : ℝ) (bd nb : Boid) (ha : a2 = 1) (hc : c2 = 0)
    (hs : s2 = 0) (hm : magnitude nb.velocity = 0) :
    (⟨frame, bd, r, [(nb, dn)], [], a2, c2, f2, s2⟩ : Flock).apply_impulse
      = { bd with acceleration := accelerationSet Vector2D.Zero } := by
  have himp : (⟨frame, bd, r, [(nb, dn)], [], a2, c2, f2, s2⟩ : Flock).impulse
      = Vector2D.Zero := by
    rw [impulse_alignment_only ⟨frame, bd, r, [(nb, dn)], [], a2, c2, f2, s2⟩
        ha hc hs rfl (by rfl), Flock.alignment_vector, Flock.average_velocity]
    simp only [List.map_cons, List.map_nil]
    rw [mean_singleton, Flock.steering_vector, if_pos hm]
  rw [Flock.apply_impulse, Boid.setAcceleration, himp]


/-- Claim C1: the implemented `BoidSystem.update` is NOT equivalent to
the two-phase reference (compute all impulses from the pre-update
snapshot, then integrate all motion).  Flock construction freezes only
the neighbor identities and distances; the steering vectors are lazily
cached and are first computed inside the fused per-boid loop, so a
later flock reads an earlier boid's already-updated velocity.  On a
1000x1000 frame with radius 100, coefficients (alignment 1, others 0),
timestep 1, boid 0 at (0,0) with zero velocity and boid 1 at (30,40)
with velocity (0,120), the fused loop gives boid 1 the updated velocity
(0,170) while the two-phase reference leaves it at (0,120). -/
theorem C1_fused_not_two_phase :
    systemUpdate ⟨1000, 1000⟩ 100 1 0 0 0 1 []
        [⟨⟨0, 0⟩, ⟨0, 0⟩, ⟨0, 0⟩⟩, ⟨⟨30, 40⟩, ⟨0, 120⟩, ⟨0, 0⟩⟩]
      ≠ twoPhaseUpdate ⟨1000, 1000⟩ 100 1 0 0 0 1 []
        [⟨⟨0, 0⟩, ⟨0, 0⟩, ⟨0, 0⟩⟩, ⟨⟨30, 40⟩, ⟨0, 120⟩, ⟨0, 0⟩⟩] := by
  have hd01 : dist ⟨1000, 1000⟩ ⟨0, 0⟩ ⟨30, 40⟩ = 50 :=
    dist_eval (by norm_num) (by norm_num) (by norm_num) (by norm_num)
  have hd10 : dist ⟨1000, 1000⟩ ⟨30, 40⟩ ⟨0, 0⟩ = 50 :=
    dist_eval (by norm_num) (by norm_num) (by norm_num) (by norm_num)
  have hd00 : dist ⟨1000, 1000⟩ ⟨0, 0⟩ ⟨0, 0⟩ = 0 :=
    dist_eval le_rfl (by norm_num) (by norm_num) (by norm_num)
  have hd11 : dist ⟨1000, 1000⟩ ⟨30, 40⟩ ⟨30, 40⟩ = 0 :=
    dist_eval le_rfl (by norm_num) (by norm_num) (by norm_num)
  have hn0 : neighborIdx ⟨1000, 1000⟩ 100
      [⟨⟨0, 0⟩, ⟨0, 0⟩, ⟨0, 0⟩⟩, ⟨⟨30, 40⟩, ⟨0, 120⟩, ⟨0, 0⟩⟩] 0
      = [(1, 50)] := by
    simp only [neighborIdx, get_neighbors]
    rw [show List.range
        (List.length [(⟨⟨0, 0⟩, ⟨0, 0⟩, ⟨0, 0⟩⟩ : Boid),
          ⟨⟨30, 40⟩, ⟨0, 120⟩, ⟨0, 0⟩⟩]) = [0, 1] from rfl]
    simp only [List.filterMap_cons, List.filterMap_nil, List.getD_cons_zero,
      List.getD_cons_succ]
    rw [hd00, hd01]
    norm_num
  have hn1 : neighborIdx ⟨1000, 1000⟩ 100
      [⟨⟨0, 0⟩, ⟨0, 0⟩, ⟨0, 0⟩⟩, ⟨⟨30, 40⟩, ⟨0, 120⟩, ⟨0, 0⟩⟩] 1
      = [(0, 50)] := by
    simp only [neighborIdx, get_neighbors]
    rw [show List.range
        (List.length [(⟨⟨0, 0⟩, ⟨0, 0⟩, ⟨0, 0⟩⟩ : Boid),
          ⟨⟨30, 40⟩, ⟨0, 120⟩, ⟨0, 0⟩⟩]) = [0, 1] from rfl]
    simp only [List.filterMap_cons, List.filterMap_nil, List.getD_cons_zero,
      List.getD_cons_succ]
    rw [hd10, hd11]
    norm_num
  have happly0 : Flock.apply_impulse
      ⟨⟨1000, 1000⟩, ⟨⟨0, 0⟩, ⟨0, 0⟩, ⟨0, 0⟩⟩, 100,
        [(⟨⟨30, 40⟩, ⟨0, 120⟩, ⟨0, 0⟩⟩, 50)], [], 1, 0, 0, 0⟩
      = ⟨⟨0, 0⟩, ⟨0, 0⟩, ⟨0, 50⟩⟩ := by
    rw [apply_impulse_alignment_one ⟨1000, 1000⟩ 100 50 1 0 0 0
      ⟨⟨0, 0⟩, ⟨0, 0⟩, ⟨0, 0⟩⟩ ⟨⟨30, 40⟩, ⟨0, 120⟩, ⟨0, 0⟩⟩ 120 rfl rfl rfl
      (magnitude_eval 0 120 120 (by norm_num) (by norm_num)) (by norm_num)]
    dsimp only
    rw [show sub (smul (max_velocity / 120) ⟨0, 120⟩) ⟨0, 0⟩ = ⟨0, 200⟩ from by
      apply Vector2D.eq_of_comp <;> simp [sub, smul, max_velocity]]
    rw [accelerationSet_big ⟨0, 200⟩ 200
      (magnitude_eval 0 200 200 (by norm_num) (by norm_num))
      (by norm_num [max_acceleration])]
    rw [show smul (max_acceleration / 200) ⟨0, 200⟩ = (⟨0, 50⟩ : Vector2D) from by
      apply Vector2D.eq_of_comp <;> simp [smul, max_acceleration] <;> norm_num]
  have hupd0 : Boid.update ⟨1000, 1000⟩ ⟨⟨0, 0⟩, ⟨0, 0⟩, ⟨0, 50⟩⟩ 1
      = ⟨⟨0, 50⟩, ⟨0, 50⟩, ⟨0, 50⟩⟩ := by
    simp only [Boid.update, Boid.setVelocity]
    rw [show add ⟨0, 0⟩ (smul 1 ⟨0, 50⟩) = (⟨0, 50⟩ : Vector2D) from by
      apply Vector2D.eq_of_comp <;> simp [add, smul]]
    rw [velocitySet_small ⟨0, 50⟩ 50
      (magnitude_eval 0 50 50 (by norm_num) (by norm_num))
      (by norm_num [max_velocity])]
    rw [show add ⟨0, 0⟩ (smul 1 ⟨0, 50⟩) = (⟨0, 50⟩ : Vector2D) from by
      apply Vector2D.eq_of_comp <;> simp [add, smul]]
    rw [modVec_in_range 0 50 1000 1000 (by norm_num) (by norm_num)
      (by norm_num) (by norm_num)]
  have happly1 : Flock.apply_impulse
      ⟨⟨1000, 1000⟩, ⟨⟨30, 40⟩, ⟨0, 120⟩, ⟨0, 0⟩⟩, 100,
        [(⟨⟨0, 50⟩, ⟨0, 50⟩, ⟨0, 50⟩⟩, 50)], [], 1, 0, 0, 0⟩
      = ⟨⟨30, 40⟩, ⟨0, 120⟩, ⟨0, 50⟩⟩ := by
    rw [apply_impulse_alignment_one ⟨1000, 1000⟩ 100 50 1 0 0 0
      ⟨⟨30, 40⟩, ⟨0, 120⟩, ⟨0, 0⟩⟩ ⟨⟨0, 50⟩, ⟨0, 50⟩, ⟨0, 50⟩⟩ 50 rfl rfl rfl
      (magnitude_eval 0 50 50 (by norm_num) (by norm_num)) (by norm_num)]
    dsimp only
    rw [show sub (smul (max_velocity / 50) ⟨0, 50⟩) ⟨0, 120⟩ = ⟨0, 80⟩ from by
      apply Vector2D.eq_of_comp <;> simp [sub, smul, max_velocity] <;> norm_num]
    rw [accelerationSet_big ⟨0, 80⟩ 80
      (magnitude_eval 0 80 80 (by norm_num) (by norm_num))
      (by norm_num [max_acceleration])]
    rw [show smul (max_acceleration / 80) ⟨0, 80⟩ = (⟨0, 50⟩ : Vector2D) from by
      apply Vector2D.eq_of_comp <;> simp [smul, max_acceleration] <;> norm_num]
  have hupd1 : Boid.update ⟨1000, 1000⟩ ⟨⟨30, 40⟩, ⟨0, 120⟩, ⟨0, 50⟩⟩ 1
      = ⟨⟨30, 210⟩, ⟨0, 170⟩, ⟨0, 50⟩⟩ := by
    simp only [Boid.update, Boid.setVelocity]
    rw [show add ⟨0, 120⟩ (smul 1 ⟨0, 50⟩) = (⟨0, 170⟩ : Vector2D) from by
      apply Vector2D.eq_of_comp <;> simp [add, smul] <;> norm_num]
    rw [velocitySet_small ⟨0, 170⟩ 170
      (magnitude_eval 0 170 170 (by norm_num) (by norm_num))
      (by norm_num [max_velocity])]
    rw [show add ⟨30, 40⟩ (smul 1 ⟨0, 170⟩) = (⟨30, 210⟩ : Vector2D) from by
      apply Vector2D.eq_of_comp <;> simp [add, smul] <;> norm_num]
    rw [modVec_in_range 30 210 1000 1000 (by norm_num) (by norm_num)
      (by norm_num) (by norm_num)]
  have happly1tp : Flock.apply_impulse
      ⟨⟨1000, 1000⟩, ⟨⟨30, 40⟩, ⟨0, 120⟩, ⟨0, 0⟩⟩, 100,
        [(⟨⟨0, 0⟩, ⟨0, 0⟩, ⟨0, 0⟩⟩, 50)], [], 1, 0, 0, 0⟩
      = ⟨⟨30, 40⟩, ⟨0, 120⟩, ⟨0, 0⟩⟩ := by
    rw [apply_impulse_alignment_zerovel ⟨1000, 1000⟩ 100 50 1 0 0 0
      ⟨⟨30, 40⟩, ⟨0, 120⟩, ⟨0, 0⟩⟩ ⟨⟨0, 0⟩, ⟨0, 0⟩, ⟨0, 0⟩⟩ rfl rfl rfl
      (magnitude_eval 0 0 0 le_rfl (by norm_num))]
    dsimp only
    rw [accelerationSet_small Vector2D.Zero 0
      (magnitude_eval 0 0 0 le_rfl (by norm_num))
      (by norm_num [max_acceleration])]
    rfl
  have hupd1tp : Boid.update ⟨1000, 1000⟩ ⟨⟨30, 40⟩, ⟨0, 120⟩, ⟨0, 0⟩⟩ 1
      = ⟨⟨30, 160⟩, ⟨0, 120⟩, ⟨0, 0⟩⟩ := by
    simp only [Boid.update, Boid.setVelocity]
    rw [show add ⟨0, 120⟩ (smul 1 ⟨0, 0⟩) = (⟨0, 120⟩ : Vector2D) from by
      apply Vector2D.eq_of_comp <;> simp [add, smul]]
    rw [velocitySet_small ⟨0, 120⟩ 120
      (magnitude_eval 0 120 120 (by norm_num) (by norm_num))
      (by norm_num [max_velocity])]
    rw [show add ⟨30, 40⟩ (smul 1 ⟨0, 120⟩) = (⟨30, 160⟩ : Vector2D) from by
      apply Vector2D.eq_of_comp <;> simp [add, smul] <;> norm_num]
    rw [modVec_in_range 30 160 1000 1000 (by norm_num) (by norm_num)
      (by norm_num) (by norm_num)]
  have hfused : systemUpdate ⟨1000, 1000⟩ 100 1 0 0 0 1 []
      [⟨⟨0, 0⟩, ⟨0, 0⟩, ⟨0, 0⟩⟩, ⟨⟨30, 40⟩, ⟨0, 120⟩, ⟨0, 0⟩⟩]
      = [⟨⟨0, 50⟩, ⟨0, 50⟩, ⟨0, 50⟩⟩, ⟨⟨30, 210⟩, ⟨0, 170⟩, ⟨0, 50⟩⟩] := by
    rw [systemUpdate]
    rw [show List.range
        (List.length [(⟨⟨0, 0⟩, ⟨0, 0⟩, ⟨0, 0⟩⟩ : Boid),
          ⟨⟨30, 40⟩, ⟨0, 120⟩, ⟨0, 0⟩⟩]) = [0, 1] from rfl]
    simp only [updateLoop]
    rw [hn0]
    rw [show obstacleIdx ⟨1000, 1000⟩ 100
        [(⟨⟨0, 0⟩, ⟨0, 0⟩, ⟨0, 0⟩⟩ : Boid), ⟨⟨30, 40⟩, ⟨0, 120⟩, ⟨0, 0⟩⟩] [] 0
        = [] from rfl]
    rw [show liveFlock ⟨1000, 1000⟩ 100 1 0 0 0
        [(⟨⟨0, 0⟩, ⟨0, 0⟩, ⟨0, 0⟩⟩ : Boid), ⟨⟨30, 40⟩, ⟨0, 120⟩, ⟨0, 0⟩⟩]
        [] 0 [(1, 50)]
        = ⟨⟨1000, 1000⟩, ⟨⟨0, 0⟩, ⟨0, 0⟩, ⟨0, 0⟩⟩, 100,
          [(⟨⟨30, 40⟩, ⟨0, 120⟩, ⟨0, 0⟩⟩, 50)], [], 1, 0, 0, 0⟩ from rfl]
    rw [happly0, hupd0]
    rw [show List.set
        [(⟨⟨0, 0⟩, ⟨0, 0⟩, ⟨0, 0⟩⟩ : Boid), ⟨⟨30, 40⟩, ⟨0, 120⟩, ⟨0, 0⟩⟩] 0
        ⟨⟨0, 50⟩, ⟨0, 50⟩, ⟨0, 50⟩⟩
        = [⟨⟨0, 50⟩, ⟨0, 50⟩, ⟨0, 50⟩⟩, ⟨⟨30, 40⟩, ⟨0, 120⟩, ⟨0, 0⟩⟩] from rfl]
    rw [hn1]
    rw [show obstacleIdx ⟨1000, 1000⟩ 100
        [(⟨⟨0, 0⟩, ⟨0, 0⟩, ⟨0, 0⟩⟩ : Boid), ⟨⟨30, 40⟩, ⟨0, 120⟩, ⟨0, 0⟩⟩] [] 1
        = [] from rfl]
    rw [show liveFlock ⟨1000, 1000⟩ 100 1 0 0 0
        [(⟨⟨0, 50⟩, ⟨0, 50⟩, ⟨0, 50⟩⟩ : Boid), ⟨⟨30, 40⟩, ⟨0, 120⟩, ⟨0, 0⟩⟩]
        [] 1 [(0, 50)]
        = ⟨⟨1000, 1000⟩, ⟨⟨30, 40⟩, ⟨0, 120⟩, ⟨0, 0⟩⟩, 100,
          [(⟨⟨0, 50⟩, ⟨0, 50⟩, ⟨0, 50⟩⟩, 50)], [], 1, 0, 0, 0⟩ from rfl]
    rw [happly1, hupd1]
    rfl
  have htp : twoPhaseUpdate ⟨1000, 1000⟩ 100 1 0 0 0 1 []
      [⟨⟨0, 0⟩, ⟨0, 0⟩, ⟨0, 0⟩⟩, ⟨⟨30, 40⟩, ⟨0, 120⟩, ⟨0, 0⟩⟩]
      = [⟨⟨0, 50⟩, ⟨0, 50⟩, ⟨0, 50⟩⟩, ⟨⟨30, 160⟩, ⟨0, 120⟩, ⟨0, 0⟩⟩] := by
    rw [twoPhaseUpdate]
    rw [show List.range
        (List.length [(⟨⟨0, 0⟩, ⟨0, 0⟩, ⟨0, 0⟩⟩ : Boid),
          ⟨⟨30, 40⟩, ⟨0, 120⟩, ⟨0, 0⟩⟩]) = [0, 1] from rfl]
    simp only [List.map_cons, List.map_nil]
    rw [hn0, hn1]
    rw [show obstacleIdx ⟨1000, 1000⟩ 100
        [(⟨⟨0, 0⟩, ⟨0, 0⟩, ⟨0, 0⟩⟩ : Boid), ⟨⟨30, 40⟩, ⟨0, 120⟩, ⟨0, 0⟩⟩] [] 0
        = [] from rfl]
    rw [show obstacleIdx ⟨1000, 1000⟩ 100
        [(⟨⟨0, 0⟩, ⟨0, 0⟩, ⟨0, 0⟩⟩ : Boid), ⟨⟨30, 40⟩, ⟨0, 120⟩, ⟨0, 0⟩⟩] [] 1
        = [] from rfl]
    rw [show liveFlock ⟨1000, 1000⟩ 100 1 0 0 0
        [(⟨⟨0, 0⟩, ⟨0, 0⟩, ⟨0, 0⟩⟩ : Boid), ⟨⟨30, 40⟩, ⟨0, 120⟩, ⟨0, 0⟩⟩]
        [] 0 [(1, 50)]
        = ⟨⟨1000, 1000⟩, ⟨⟨0, 0⟩, ⟨0, 0⟩, ⟨0, 0⟩⟩, 100,
          [(⟨⟨30, 40⟩, ⟨0, 120⟩, ⟨0, 0⟩⟩, 50)], [], 1, 0, 0, 0⟩ from rfl]
    rw [show liveFlock ⟨1000, 1000⟩ 100 1 0 0 0
        [(⟨⟨0, 0⟩, ⟨0, 0⟩, ⟨0, 0⟩⟩ : Boid), ⟨⟨30, 40⟩, ⟨0, 120⟩, ⟨0, 0⟩⟩]
        [] 1 [(0, 50)]
        = ⟨⟨1000, 1000⟩, ⟨⟨30, 40⟩, ⟨0, 120⟩, ⟨0, 0⟩⟩, 100,
          [(⟨⟨0, 0⟩, ⟨0, 0⟩, ⟨0, 0⟩⟩, 50)], [], 1, 0, 0, 0⟩ from rfl]
    rw [happly0, happly1tp, hupd0, hupd1tp]
  rw [hfused, htp]
  intro h
  simp only [List.cons.injEq, Boid.mk.injEq, Vector2D.mk.injEq] at h
  norm_num at h

end Boids
